import Mathlib

/-!
Shallow embedding of the convert-and-archive AWS Lambda handler
(`src/lambda_function.py`) of the `aws-lambda-pet-project` repository,
together with proofs of the specification claims about it.

The storage bucket is modelled as a partial map from keys to contents, the
boto3 client calls as operations on that map that may fail according to an
explicit failure oracle, and the pandas CSV/Parquet conversion as a
row-oriented table type with a columnar encoding.  Python string methods
used by the handler (`str.startswith`, `str.endswith`, `str.replace`) are
re-implemented on character lists with Python semantics; in particular
`str.replace` replaces every non-overlapping occurrence, left to right.
-/

set_option autoImplicit false

/-- Python `str.replace` on character lists, with a skip counter: after a
match at the current position, `pat.length - 1` further characters of the
tail were already consumed by the match and are skipped silently.
`strReplaceGo pat repl 0 s` replaces every non-overlapping occurrence of
`pat` in `s` by `repl`, scanning left to right, exactly as Python does for
a non-empty pattern. -/
def strReplaceGo (pat repl : List Char) : Nat → List Char → List Char
  | _, [] => []
  | Nat.succ k, _ :: rest => strReplaceGo pat repl k rest
  | 0, c :: rest =>
    if pat.isPrefixOf (c :: rest) then
      repl ++ strReplaceGo pat repl (pat.length - 1) rest
    else
      c :: strReplaceGo pat repl 0 rest

/-- Python `source.replace(old, new)` for the non-empty patterns the handler
uses: every non-overlapping occurrence is replaced, left to right. -/
def pyReplace (s old new : String) : String :=
  String.mk (strReplaceGo old.data new.data 0 s.data)

/-- Python `s.startswith(pre)`. -/
def pyStartsWith (s pre : String) : Bool :=
  pre.data.isPrefixOf s.data

/-- Python `s.endswith(suf)`. -/
def pyEndsWith (s suf : String) : Bool :=
  suf.data.isSuffixOf s.data

/-- Python `s.split(pat)` on character lists (non-empty pattern), with the
same skip-counter scheme as `strReplaceGo`: the result is the list of the
fragments of `s` standing between consecutive non-overlapping occurrences
of `pat`, scanned left to right. -/
def pySplitGo (pat : List Char) : Nat → List Char → List (List Char)
  | _, [] => [[]]
  | Nat.succ k, _ :: rest => pySplitGo pat k rest
  | 0, c :: rest =>
    if pat.isPrefixOf (c :: rest) then
      [] :: pySplitGo pat (pat.length - 1) rest
    else
      match pySplitGo pat 0 rest with
      | [] => [[c]]
      | g :: gs => (c :: g) :: gs

/-- `joinWith sep [g1, g2, ..., gn] = g1 ++ sep ++ g2 ++ ... ++ sep ++ gn`,
the character-list form of Python `sep.join(groups)`. -/
def joinWith (sep : List Char) : List (List Char) → List Char
  | [] => []
  | [g] => g
  | g :: gs => g ++ sep ++ joinWith sep gs

/-- Modelled from the spec: replace-all substring replacement described
independently of the handler code, via the Python identity
`s.replace(old, new) = new.join(s.split(old))`: the string is cut at every
non-overlapping occurrence of `old` and the fragments are joined with
`new`. -/
def replaceAllSpec (s old new : String) : String :=
  String.mk (joinWith new.data (pySplitGo old.data 0 s.data))

/-- Modelled from the spec: first-occurrence-only substring replacement,
the semantics claim C4 attributes to the handler. Only the leftmost
occurrence of `pat` is replaced; the rest of the string is kept verbatim. -/
def replaceFirstGo (pat repl : List Char) : List Char → List Char
  | [] => []
  | c :: rest =>
    if pat.isPrefixOf (c :: rest) then
      repl ++ (c :: rest).drop pat.length
    else
      c :: replaceFirstGo pat repl rest

/-- Modelled from the spec: `replaceFirst s old new` replaces only the first
occurrence of `old` in `s` by `new`. -/
def replaceFirst (s old new : String) : String :=
  String.mk (replaceFirstGo old.data new.data s.data)

/-- The in-memory row-oriented table a `pandas.DataFrame` holds after
`pd.read_csv`: a header of column names and the data rows, in file order.
Cell values are kept abstract as strings. -/
structure Table where
  columns : List String
  rows : List (List String)
  deriving Repr, DecidableEq

/-- A table is well-formed when every data row has exactly one cell per
column. -/
def Table.wf (t : Table) : Prop :=
  ∀ r ∈ t.rows, r.length = t.columns.length

instance (t : Table) : Decidable t.wf := by
  unfold Table.wf; infer_instance

/-- The columnar binary artifact produced by
`df.to_parquet(buffer, index=False, engine="pyarrow")`: the row count
(Parquet metadata) and, per column name, the column data in row order.
No implicit index column is materialized. -/
structure Columnar where
  nrows : Nat
  cols : List (String × List String)
  deriving Repr, DecidableEq

/-- Columnar encoding of a row-oriented table: for each column (in header
order) the list of that column's cells taken from the rows in order. -/
def toColumnar (t : Table) : Columnar :=
  { nrows := t.rows.length
    cols := t.columns.enum.map fun p =>
      (p.2, t.rows.map fun r => r.getD p.1 "") }

/-- Decoding a columnar artifact back into a row-oriented table, as a
Parquet reader would: the header is the list of column names, and row `j`
collects the `j`-th entry of every column. -/
def ofColumnar (c : Columnar) : Table :=
  { columns := c.cols.map Prod.fst
    rows := (List.range c.nrows).map fun j =>
      c.cols.map fun col => col.2.getD j "" }

/-- Content of a stored object: either a CSV text decodable into a table,
a Parquet columnar artifact, or arbitrary bytes not decodable as a table. -/
inductive Content where
  | csv (t : Table)
  | parquet (c : Columnar)
  | bytes (s : String)
  deriving Repr, DecidableEq

/-- `pd.read_csv` on an object body: succeeds exactly on contents that are
a decodable row-oriented text table, and raises (returns `none`) on
anything else. -/
def decodeCSV : Content → Option Table
  | Content.csv t => some t
  | _ => none

/-- The bucket contents: a partial map from object key to content. -/
abbrev Store := String → Option Content

/-- Effect of a successful `upload_fileobj` on the bucket contents. -/
def Store.put (st : Store) (k : String) (v : Content) : Store :=
  fun q => if q = k then some v else st q

/-- Effect of a successful `delete_object` on the bucket contents
(deleting an absent key is a successful no-op, as in S3). -/
def Store.del (st : Store) (k : String) : Store :=
  fun q => if q = k then none else st q

/-- One boto3 S3 client call, with the bucket it targets. -/
inductive Op where
  | head (bucket key : String)
  | get (bucket key : String)
  | put (bucket key : String)
  | del (bucket key : String)
  deriving Repr, DecidableEq

/-- The bucket an operation targets. -/
def Op.bucket : Op → String
  | Op.head b _ => b
  | Op.get b _ => b
  | Op.put b _ => b
  | Op.del b _ => b

/-- Failure oracle for the storage backend: `orc op = true` means the
backend call succeeds (no transient infrastructure error); `false` means
the call raises. Whether a `get` or `head` also needs the key to exist is
decided at the call site. -/
abbrev Oracle := Op → Bool

/-- The oracle under which every backend call succeeds. -/
def allOk : Oracle := fun _ => true

-- Constants for S3 bucket and folder paths (module-level in the source).

def bucket_name : String := "aws-lambda-pet-project-bucket"

def incoming_folder : String := "incoming/"

def archive_folder : String := "archive/"

/-- Eligibility filter of the handler:
`source_path.startswith(incoming_folder) and source_path.endswith(".csv")`. -/
def eligible (source_path : String) : Bool :=
  pyStartsWith source_path incoming_folder && pyEndsWith source_path ".csv"

/-- Destination-key derivation of the handler:
`source_path.replace(incoming_folder, archive_folder).replace(".csv", ".parquet")`. -/
def derivedKey (source_path : String) : String :=
  pyReplace (pyReplace source_path incoming_folder archive_folder) ".csv" ".parquet"

/-- Modelled from the spec: the destination key claim C4 describes, with
first/only-occurrence substring-replace semantics for both substitutions. -/
def derivedKeyFirstOcc (source_path : String) : String :=
  replaceFirst (replaceFirst source_path incoming_folder archive_folder) ".csv" ".parquet"

/-- Modelled from the spec: the destination key with replace-all semantics
stated via the independent split/join characterization. -/
def derivedKeySpecAll (source_path : String) : String :=
  replaceAllSpec (replaceAllSpec source_path incoming_folder archive_folder) ".csv" ".parquet"

/-- `s3.head_object(Bucket=bucket_name, Key=key)`: succeeds when the
backend is up and the key exists; raises (an error value) when the backend
fails or the key is absent (404). -/
def head_object (orc : Oracle) (st : Store) (key : String) : Except Unit Unit :=
  if orc (Op.head bucket_name key) && (st key).isSome then
    Except.ok ()
  else
    Except.error ()

/-- `s3_file_exist` from the source: probes the destination with
`head_object` and maps every exception to `False`. -/
def s3_file_exist (orc : Oracle) (st : Store) (destination_path : String) : Bool :=
  match head_object orc st destination_path with
  | Except.ok _ => true
  | Except.error _ => false

/-- The `object` sub-dictionary of one S3 event record; a missing `key`
entry is a `KeyError` site in Python. -/
structure ObjPart where
  key : Option String
  deriving Repr, DecidableEq

/-- The `s3` sub-dictionary of one event record. The bucket name the
notification carries is present in the payload but never read by the
handler. -/
structure S3Part where
  bucket : Option String
  object : Option ObjPart
  deriving Repr, DecidableEq

/-- One entry of the `Records` array of the notification event. The
`eventName` field stands for the further payload fields the handler never
reads. -/
structure EventRecord where
  eventName : Option String
  s3 : Option S3Part
  deriving Repr, DecidableEq

/-- The notification event passed to the handler. -/
structure Event where
  records : List EventRecord
  deriving Repr, DecidableEq

/-- `event["Records"][0]["s3"]["object"]["key"]`: `none` models the
`IndexError`/`KeyError` Python raises when the `Records` list is empty or
an intermediate dictionary entry is missing. -/
def extractKey (ev : Event) : Option String :=
  match ev.records with
  | [] => none
  | r :: _ =>
    match r.s3 with
    | none => none
    | some s =>
      match s.object with
      | none => none
      | some o => o.key

/-- Observable outcome of one handler invocation: the bucket contents
afterwards, the boto3 calls that were issued in order, and whether the
invocation returned normally (`true`) or propagated an exception
(`false`). -/
structure Outcome where
  store : Store
  trace : List Op
  success : Bool

/-- The handler `lambda_handler` of `src/lambda_function.py`, as a function
of the failure oracle, the bucket contents and the event.

Control flow mirrors the source line by line: extract the key (raising on
a malformed event); return silently unless the key starts with
`incoming_folder` and ends with `".csv"`; derive the destination by the two
`str.replace` calls; if `s3_file_exist` reports the destination present,
delete the source and return; otherwise `get_object` the source (raising
if the backend fails or the key is absent), `pd.read_csv` it (raising on
undecodable content), convert to Parquet with `to_parquet(index=False)`,
`upload_fileobj` the artifact to the destination, and `delete_object` the
source. An exception at any call propagates with the store as mutated so
far. -/
def lambda_handler (orc : Oracle) (st : Store) (ev : Event) : Outcome :=
  match extractKey ev with
  | none => { store := st, trace := [], success := false }
  | some source_path =>
    if eligible source_path then
      let destination_path := derivedKey source_path
      if s3_file_exist orc st destination_path then
        if orc (Op.del bucket_name source_path) then
          { store := st.del source_path
            trace := [Op.head bucket_name destination_path,
                      Op.del bucket_name source_path]
            success := true }
        else
          { store := st
            trace := [Op.head bucket_name destination_path,
                      Op.del bucket_name source_path]
            success := false }
      else
        match (if orc (Op.get bucket_name source_path) then st source_path else none) with
        | none =>
          { store := st
            trace := [Op.head bucket_name destination_path,
                      Op.get bucket_name source_path]
            success := false }
        | some body =>
          match decodeCSV body with
          | none =>
            { store := st
              trace := [Op.head bucket_name destination_path,
                        Op.get bucket_name source_path]
              success := false }
          | some df =>
            if orc (Op.put bucket_name destination_path) then
              if orc (Op.del bucket_name source_path) then
                { store := (st.put destination_path (Content.parquet (toColumnar df))).del source_path
                  trace := [Op.head bucket_name destination_path,
                            Op.get bucket_name source_path,
                            Op.put bucket_name destination_path,
                            Op.del bucket_name source_path]
                  success := true }
              else
                { store := st.put destination_path (Content.parquet (toColumnar df))
                  trace := [Op.head bucket_name destination_path,
                            Op.get bucket_name source_path,
                            Op.put bucket_name destination_path,
                            Op.del bucket_name source_path]
                  success := false }
            else
              { store := st
                trace := [Op.head bucket_name destination_path,
                          Op.get bucket_name source_path,
                          Op.put bucket_name destination_path]
                success := false }
    else
      { store := st, trace := [], success := true }

-- Concrete data used to instantiate the claim theorems.

/-- A small well-formed two-column, two-row table. -/
def tW : Table := { columns := ["name", "qty"], rows := [["a", "1"], ["b", "2"]] }

/-- A CSV object body decoding to `tW`. -/
def bodyW : Content := Content.csv tW

/-- A well-formed notification event for the key `incoming/a.csv`. -/
def evW : Event :=
  { records := [{ eventName := some "ObjectCreated:Put"
                  s3 := some { bucket := some "aws-lambda-pet-project-bucket"
                               object := some { key := some "incoming/a.csv" } } }] }

/-- A second event agreeing with `evW` on `Records[0].s3.object.key` but
differing in the carried bucket name, the event name, and an extra batch
record. -/
def evW2 : Event :=
  { records := [{ eventName := some "ObjectCreated:Copy"
                  s3 := some { bucket := some "some-other-bucket"
                               object := some { key := some "incoming/a.csv" } } },
                { eventName := none
                  s3 := some { bucket := some "extra-bucket"
                               object := some { key := some "incoming/extra.csv" } } }] }

/-- An event whose key is outside the incoming path. -/
def evOtherW : Event :=
  { records := [{ eventName := some "ObjectCreated:Put"
                  s3 := some { bucket := some "aws-lambda-pet-project-bucket"
                               object := some { key := some "other/data.csv" } } }] }

/-- A malformed event: empty `Records` list. -/
def evBadW : Event := { records := [] }

/-- A store holding only the source object `incoming/a.csv`. -/
def stW : Store := fun q => if q = "incoming/a.csv" then some bodyW else none

/-- A store holding both the source object and the already-produced
destination artifact. -/
def stBothW : Store := fun q =>
  if q = "incoming/a.csv" then some bodyW
  else if q = "archive/a.parquet" then some (Content.parquet (toColumnar tW))
  else none

/-- A store holding only the destination artifact (post-conversion state). -/
def stArchW : Store := fun q =>
  if q = "archive/a.parquet" then some (Content.parquet (toColumnar tW)) else none

/-- An oracle under which every backend call succeeds except uploads. -/
def orcPutFailW : Oracle := fun op =>
  match op with
  | Op.put _ _ => false
  | _ => true

-- Helper lemmas.

theorem map_enum_getD {α β : Type} (d : β) (l : List α) (r : List β)
    (h : r.length = l.length) :
    l.enum.map (fun p => r.getD p.1 d) = r := by
  apply List.ext_getElem
  · simp [List.enum_eq_enumFrom, h]
  · intro i h1 h2
    simp [List.enum_eq_enumFrom, List.getElem_enumFrom]
    simp [List.getElem?_eq_getElem h2]

/-- Decoding the columnar artifact of a well-formed table restores the
table exactly: same header, same rows, same order. -/
theorem toColumnar_roundtrip (t : Table) (h : t.wf) : ofColumnar (toColumnar t) = t := by
  obtain ⟨cols, rows⟩ := t
  have hwf : ∀ r ∈ rows, r.length = cols.length := h
  unfold ofColumnar toColumnar
  simp only [Table.mk.injEq]
  constructor
  · simp [List.map_map, Function.comp_def, List.enum_eq_enumFrom]
  · apply List.ext_getElem
    · simp
    · intro j hj1 hj2
      simp only [List.getElem_map, List.getElem_range, List.map_map]
      have hj : j < rows.length := by simpa using hj2
      have hrow : (Function.comp (fun col : String × List String => col.2.getD j "")
          (fun p : Nat × String => (p.2, rows.map fun r => r.getD p.1 ""))) =
          fun p : Nat × String => (rows.get (Fin.mk j hj)).getD p.1 "" := by
        funext p
        simp [Function.comp_def]
        rw [List.getElem?_eq_getElem hj]
        simp
      rw [hrow]
      exact map_enum_getD "" cols (rows.get (Fin.mk j hj)) (hwf _ (List.getElem_mem hj))

theorem isPrefixOf_cons_elim {p : Char} {ps l : List Char}
    (h : (p :: ps).isPrefixOf l = true) :
    ∃ w, l = p :: w ∧ ps.isPrefixOf w = true := by
  cases l with
  | nil => simp [List.isPrefixOf] at h
  | cons b bs =>
    rw [show ((p :: ps).isPrefixOf (b :: bs)) = (p == b && ps.isPrefixOf bs) from rfl,
      Bool.and_eq_true] at h
    obtain ⟨h1, h2⟩ := h
    exact ⟨bs, by rw [eq_of_beq h1], h2⟩

theorem strReplaceGo_match {pat repl : List Char} {c : Char} {rest : List Char}
    (h : pat.isPrefixOf (c :: rest) = true) :
    strReplaceGo pat repl 0 (c :: rest) =
      repl ++ strReplaceGo pat repl (pat.length - 1) rest := by
  simp [strReplaceGo, h]

theorem strReplaceGo_nomatch {pat repl : List Char} {c : Char} {rest : List Char}
    (h : pat.isPrefixOf (c :: rest) = false) :
    strReplaceGo pat repl 0 (c :: rest) = c :: strReplaceGo pat repl 0 rest := by
  simp [strReplaceGo, h]

/-- An eligible source key starts with the character `i` of `incoming/`. -/
theorem eligible_src_head {s : String} (h : eligible s = true) :
    ∃ w, s.data = 'i' :: w := by
  have h1 : pyStartsWith s incoming_folder = true := by
    unfold eligible at h
    exact (Bool.and_eq_true _ _).mp h |>.1
  unfold pyStartsWith at h1
  have hinc : incoming_folder.data = 'i' :: "ncoming/".data := rfl
  rw [hinc] at h1
  obtain ⟨w, hw, -⟩ := isPrefixOf_cons_elim h1
  exact ⟨w, hw⟩

/-- The destination key derived from an eligible source key starts with the
character `a` of `archive/`. -/
theorem eligible_derived_head {s : String} (h : eligible s = true) :
    ∃ z, (derivedKey s).data = 'a' :: z := by
  have hpre : incoming_folder.data.isPrefixOf s.data = true := by
    unfold eligible pyStartsWith at h
    exact (Bool.and_eq_true _ _).mp h |>.1
  obtain ⟨w, hw⟩ := eligible_src_head h
  rw [hw] at hpre
  have h1 : strReplaceGo incoming_folder.data archive_folder.data 0 s.data =
      archive_folder.data ++
        strReplaceGo incoming_folder.data archive_folder.data
          (incoming_folder.data.length - 1) w := by
    rw [hw]
    exact strReplaceGo_match hpre
  have ha : archive_folder.data = 'a' :: "rchive/".data := rfl
  have hnp : (".csv" : String).data.isPrefixOf
      ('a' :: ("rchive/".data ++
        strReplaceGo incoming_folder.data archive_folder.data
          (incoming_folder.data.length - 1) w)) = false := by
    have hc : (".csv" : String).data = '.' :: "csv".data := rfl
    rw [hc]
    simp [List.isPrefixOf]
  have hd : (derivedKey s).data =
      strReplaceGo (".csv" : String).data (".parquet" : String).data 0
        (strReplaceGo incoming_folder.data archive_folder.data 0 s.data) := rfl
  refine ⟨strReplaceGo (".csv" : String).data (".parquet" : String).data 0
      ("rchive/".data ++ strReplaceGo incoming_folder.data archive_folder.data
        (incoming_folder.data.length - 1) w), ?_⟩
  rw [hd, h1, ha, List.cons_append]
  rw [ha] at hnp
  rw [strReplaceGo_nomatch hnp]

/-- On eligible keys the derived destination key always differs from the
source key: the former starts with `a`, the latter with `i`. -/
theorem derivedKey_ne {s : String} (h : eligible s = true) : derivedKey s ≠ s := by
  obtain ⟨w, hw⟩ := eligible_src_head h
  obtain ⟨z, hz⟩ := eligible_derived_head h
  intro he
  rw [he, hw] at hz
  injection hz with h1 _
  exact absurd h1 (by decide)

theorem pySplitGo_ne_nil (pat : List Char) (k : Nat) (s : List Char) :
    pySplitGo pat k s ≠ [] := by
  induction s generalizing k with
  | nil => simp [pySplitGo]
  | cons c rest ih =>
    cases k with
    | zero =>
      by_cases hp : pat.isPrefixOf (c :: rest) = true
      · simp [pySplitGo, hp]
      · rw [Bool.not_eq_true] at hp
        simp only [pySplitGo, hp, Bool.false_eq_true, if_false]
        cases hq : pySplitGo pat 0 rest with
        | nil => simp
        | cons g gs => simp
    | succ k => simpa [pySplitGo] using ih k

theorem joinWith_cons_cons (sep : List Char) (c : Char) (g : List Char)
    (gs : List (List Char)) :
    joinWith sep ((c :: g) :: gs) = c :: joinWith sep (g :: gs) := by
  cases gs <;> simp [joinWith]

/-- The scanning replacement agrees with the split-and-join description:
cut at every non-overlapping occurrence, join with the replacement. -/
theorem strReplaceGo_eq_joinWith (pat repl : List Char) (s : List Char) :
    ∀ k, strReplaceGo pat repl k s = joinWith repl (pySplitGo pat k s) := by
  induction s with
  | nil => intro k; simp [strReplaceGo, pySplitGo, joinWith]
  | cons c rest ih =>
    intro k
    cases k with
    | succ k => simp only [strReplaceGo, pySplitGo]; exact ih k
    | zero =>
      by_cases hp : pat.isPrefixOf (c :: rest) = true
      · rw [strReplaceGo_match hp]
        simp only [pySplitGo, hp, if_true]
        have hne := pySplitGo_ne_nil pat (pat.length - 1) rest
        cases hq : pySplitGo pat (pat.length - 1) rest with
        | nil => exact absurd hq hne
        | cons g gs =>
          rw [ih (pat.length - 1), hq]
          simp [joinWith]
      · rw [Bool.not_eq_true] at hp
        rw [strReplaceGo_nomatch hp]
        have hne := pySplitGo_ne_nil pat 0 rest
        cases hq : pySplitGo pat 0 rest with
        | nil => exact absurd hq hne
        | cons g gs =>
          simp only [pySplitGo, hp, Bool.false_eq_true, if_false, hq]
          rw [ih 0, hq, joinWith_cons_cons]

theorem pyReplace_eq_replaceAllSpec (s old new : String) :
    pyReplace s old new = replaceAllSpec s old new := by
  unfold pyReplace replaceAllSpec
  rw [strReplaceGo_eq_joinWith]

theorem derivedKey_eq_specAll (k : String) : derivedKey k = derivedKeySpecAll k := by
  unfold derivedKey derivedKeySpecAll
  rw [pyReplace_eq_replaceAllSpec, pyReplace_eq_replaceAllSpec]

/-- Outcome of the conversion path when every needed backend call
succeeds: the artifact is written, the source deleted, four storage calls
issued, normal return. -/
theorem handler_convert (orc : Oracle) (st : Store) (ev : Event) (src : String)
    (body : Content) (df : Table)
    (hev : extractKey ev = some src)
    (hel : eligible src = true)
    (hprobe : s3_file_exist orc st (derivedKey src) = false)
    (hget : orc (Op.get bucket_name src) = true)
    (hsrc : st src = some body)
    (hdec : decodeCSV body = some df)
    (hput : orc (Op.put bucket_name (derivedKey src)) = true)
    (hdel : orc (Op.del bucket_name src) = true) :
    lambda_handler orc st ev =
      { store := (st.put (derivedKey src) (Content.parquet (toColumnar df))).del src
        trace := [Op.head bucket_name (derivedKey src), Op.get bucket_name src,
                  Op.put bucket_name (derivedKey src), Op.del bucket_name src]
        success := true } := by
  unfold lambda_handler
  rw [hev]
  simp [hel, hprobe, hget, hsrc, hdec, hput, hdel]

/-- Outcome of the idempotency-shortcut path: the probe reports the
destination present, so the handler only deletes the source. -/
theorem handler_already (orc : Oracle) (st : Store) (ev : Event) (src : String)
    (hev : extractKey ev = some src)
    (hel : eligible src = true)
    (hprobe : s3_file_exist orc st (derivedKey src) = true)
    (hdel : orc (Op.del bucket_name src) = true) :
    lambda_handler orc st ev =
      { store := st.del src
        trace := [Op.head bucket_name (derivedKey src), Op.del bucket_name src]
        success := true } := by
  unfold lambda_handler
  rw [hev]
  simp [hel, hprobe, hdel]

/-- Every storage call the handler issues targets the module-level bucket
constant. -/
theorem trace_targets_bucket (orc : Oracle) (st : Store) (ev : Event) :
    ∀ op ∈ (lambda_handler orc st ev).trace, op.bucket = bucket_name := by
  intro op hop
  unfold lambda_handler at hop
  cases hev : extractKey ev <;> rw [hev] at hop
  · simp at hop
  · case some src =>
    by_cases hel : eligible src = true
    · simp only [hel, if_true] at hop
      split at hop
      · split at hop <;> simp at hop <;> rcases hop with rfl | rfl <;> rfl
      · split at hop
        · simp at hop
          rcases hop with rfl | rfl <;> rfl
        · split at hop
          · simp at hop
            rcases hop with rfl | rfl <;> rfl
          · split at hop
            · split at hop <;> simp at hop <;>
                rcases hop with rfl | rfl | rfl | rfl <;> rfl
            · simp at hop
              rcases hop with rfl | rfl | rfl <;> rfl
    · rw [Bool.not_eq_true] at hel
      simp [hel] at hop

-- Claim theorems.

/-- Claim C1: for every eligible source key (starts with the incoming
prefix, ends with `.csv`) whose derived destination key is absent from the
store, a successful invocation fetches the source content, decodes it as a
row-oriented table, and leaves the store with the destination key holding
the columnar encoding of that table (row count and column set preserved,
no implicit index column) and the source key deleted. -/
theorem C1_conversion (st : Store) (ev : Event) (src : String) (body : Content)
    (df : Table)
    (hev : extractKey ev = some src)
    (hel : eligible src = true)
    (hdst : st (derivedKey src) = none)
    (hsrc : st src = some body)
    (hdec : decodeCSV body = some df) :
    (lambda_handler allOk st ev).success = true ∧
    Op.get bucket_name src ∈ (lambda_handler allOk st ev).trace ∧
    (lambda_handler allOk st ev).store (derivedKey src) =
      some (Content.parquet (toColumnar df)) ∧
    (lambda_handler allOk st ev).store src = none ∧
    (toColumnar df).nrows = df.rows.length ∧
    (toColumnar df).cols.map Prod.fst = df.columns := by
  have hprobe : s3_file_exist allOk st (derivedKey src) = false := by
    simp [s3_file_exist, head_object, hdst]
  have hrun := handler_convert allOk st ev src body df hev hel hprobe rfl hsrc hdec rfl rfl
  rw [hrun]
  have hne := derivedKey_ne hel
  refine ⟨rfl, by simp, ?_, ?_, rfl, ?_⟩
  · simp [Store.del, Store.put, hne]
  · simp [Store.del]
  · simp [toColumnar, List.map_map, Function.comp_def, List.enum_eq_enumFrom]

theorem C1_conversion_witness :
    (lambda_handler allOk stW evW).success = true ∧
    Op.get bucket_name "incoming/a.csv" ∈ (lambda_handler allOk stW evW).trace ∧
    (lambda_handler allOk stW evW).store (derivedKey "incoming/a.csv") =
      some (Content.parquet (toColumnar tW)) ∧
    (lambda_handler allOk stW evW).store "incoming/a.csv" = none ∧
    (toColumnar tW).nrows = tW.rows.length ∧
    (toColumnar tW).cols.map Prod.fst = tW.columns :=
  C1_conversion stW evW "incoming/a.csv" bodyW tW rfl (by decide) (by decide)
    (by decide) rfl

/-- Claim C2: for every eligible source key whose derived destination key
already exists, the only storage side effect of the invocation is deleting
the source key: the trace holds exactly the metadata probe and the source
delete (no content fetch, no write), the destination and every other key
are unchanged, and the handler returns without error. -/
theorem C2_already_processed (st : Store) (ev : Event) (src : String) (v : Content)
    (hev : extractKey ev = some src)
    (hel : eligible src = true)
    (hdst : st (derivedKey src) = some v) :
    (lambda_handler allOk st ev).success = true ∧
    (lambda_handler allOk st ev).trace =
      [Op.head bucket_name (derivedKey src), Op.del bucket_name src] ∧
    (lambda_handler allOk st ev).store src = none ∧
    (∀ k, k ≠ src → (lambda_handler allOk st ev).store k = st k) ∧
    (lambda_handler allOk st ev).store (derivedKey src) = some v := by
  have hprobe : s3_file_exist allOk st (derivedKey src) = true := by
    simp [s3_file_exist, head_object, hdst, allOk]
  have hrun := handler_already allOk st ev src hev hel hprobe rfl
  rw [hrun]
  have hne := derivedKey_ne hel
  exact ⟨rfl, rfl, by simp [Store.del], fun k hk => by simp [Store.del, hk],
    by simp [Store.del, hne, hdst]⟩

theorem C2_already_processed_witness :
    (lambda_handler allOk stBothW evW).success = true ∧
    (lambda_handler allOk stBothW evW).trace =
      [Op.head bucket_name (derivedKey "incoming/a.csv"),
       Op.del bucket_name "incoming/a.csv"] ∧
    (lambda_handler allOk stBothW evW).store "incoming/a.csv" = none ∧
    (∀ k, k ≠ "incoming/a.csv" →
      (lambda_handler allOk stBothW evW).store k = stBothW k) ∧
    (lambda_handler allOk stBothW evW).store (derivedKey "incoming/a.csv") =
      some (Content.parquet (toColumnar tW)) :=
  C2_already_processed stBothW evW "incoming/a.csv" (Content.parquet (toColumnar tW))
    rfl (by decide) (by decide)

/-- Claim C3: for every event whose key fails the eligibility filter
(wrong path or wrong extension), the handler is a silent no-op: zero
storage calls, no error, store unchanged. -/
theorem C3_ineligible_noop (orc : Oracle) (st : Store) (ev : Event) (src : String)
    (hev : extractKey ev = some src)
    (hel : eligible src = false) :
    lambda_handler orc st ev = { store := st, trace := [], success := true } := by
  unfold lambda_handler
  rw [hev]
  simp [hel]

theorem C3_ineligible_noop_witness :
    lambda_handler allOk stW evOtherW =
      { store := stW, trace := [], success := true } :=
  C3_ineligible_noop allOk stW evOtherW "other/data.csv" rfl (by decide)

/-- Claim C4, counterexample: on the eligible key
`incoming/incoming/a.csv` the handler (Python replace-all semantics)
derives `archive/archive/a.parquet`, while the first/only-occurrence
semantics the claim asserts would derive `archive/incoming/a.parquet`. -/
theorem C4_counterexample_first_occurrence :
    eligible "incoming/incoming/a.csv" = true ∧
    derivedKey "incoming/incoming/a.csv" = "archive/archive/a.parquet" ∧
    derivedKeyFirstOcc "incoming/incoming/a.csv" = "archive/incoming/a.parquet" ∧
    derivedKey "incoming/incoming/a.csv" ≠ derivedKeyFirstOcc "incoming/incoming/a.csv" := by
  exact ⟨by decide, by decide, by decide, by decide⟩

/-- Claim C4, amended: the destination key substitutes every
non-overlapping occurrence (left to right) of the incoming prefix and of
`.csv`, the replace-all semantics of Python string replacement,
characterized independently by cut-at-every-occurrence-and-join; the
claim example `incoming/2024/sales.csv` to `archive/2024/sales.parquet`
holds. -/
theorem C4_amended_replace_all :
    (∀ k : String, derivedKey k = derivedKeySpecAll k) ∧
    derivedKey "incoming/2024/sales.csv" = "archive/2024/sales.parquet" :=
  ⟨derivedKey_eq_specAll, by decide⟩

/-- Claim C5: the existence probe never raises: it returns `true` exactly
when the metadata probe succeeds and `false` exactly when the probe errors
for any reason, including not-found, so any probe failure is treated as
the destination not existing. -/
theorem C5_probe_total (orc : Oracle) (st : Store) (k : String) :
    (s3_file_exist orc st k = true ↔ head_object orc st k = Except.ok ()) ∧
    (s3_file_exist orc st k = false ↔ head_object orc st k = Except.error ()) := by
  unfold s3_file_exist head_object
  by_cases h : (orc (Op.head bucket_name k) && (st k).isSome) = true
  · simp [h]
  · rw [Bool.not_eq_true] at h
    simp [h]

/-- Claim C6: if the destination write fails on the conversion path, the
failure propagates uncaught, the store is unchanged (the source object
keeps its original content), and the source delete is never issued. -/
theorem C6_write_failure (orc : Oracle) (st : Store) (ev : Event) (src : String)
    (body : Content) (df : Table)
    (hev : extractKey ev = some src)
    (hel : eligible src = true)
    (hdst : st (derivedKey src) = none)
    (hget : orc (Op.get bucket_name src) = true)
    (hsrc : st src = some body)
    (hdec : decodeCSV body = some df)
    (hput : orc (Op.put bucket_name (derivedKey src)) = false) :
    (lambda_handler orc st ev).success = false ∧
    (∀ k, (lambda_handler orc st ev).store k = st k) ∧
    (lambda_handler orc st ev).store src = some body ∧
    Op.del bucket_name src ∉ (lambda_handler orc st ev).trace := by
  have hprobe : s3_file_exist orc st (derivedKey src) = false := by
    simp [s3_file_exist, head_object, hdst]
  have hrun : lambda_handler orc st ev =
      { store := st
        trace := [Op.head bucket_name (derivedKey src), Op.get bucket_name src,
                  Op.put bucket_name (derivedKey src)]
        success := false } := by
    unfold lambda_handler
    rw [hev]
    simp [hel, hprobe, hget, hsrc, hdec, hput]
  rw [hrun]
  exact ⟨rfl, fun k => rfl, hsrc, by simp⟩

theorem C6_write_failure_witness :
    (lambda_handler orcPutFailW stW evW).success = false ∧
    (∀ k, (lambda_handler orcPutFailW stW evW).store k = stW k) ∧
    (lambda_handler orcPutFailW stW evW).store "incoming/a.csv" = some bodyW ∧
    Op.del bucket_name "incoming/a.csv" ∉ (lambda_handler orcPutFailW stW evW).trace :=
  C6_write_failure orcPutFailW stW evW "incoming/a.csv" bodyW tW rfl (by decide)
    (by decide) (by decide) (by decide) rfl (by decide)

/-- Claim C7: conversion is lossless: the columnar artifact the handler
writes to the destination decodes back to exactly the table obtained by
decoding the source content directly (same values, column set, row
order). -/
theorem C7_lossless_roundtrip (st : Store) (ev : Event) (src : String)
    (body : Content) (df : Table)
    (hev : extractKey ev = some src)
    (hel : eligible src = true)
    (hdst : st (derivedKey src) = none)
    (hsrc : st src = some body)
    (hdec : decodeCSV body = some df)
    (hwf : df.wf) :
    (lambda_handler allOk st ev).store (derivedKey src) =
      some (Content.parquet (toColumnar df)) ∧
    ofColumnar (toColumnar df) = df := by
  have hprobe : s3_file_exist allOk st (derivedKey src) = false := by
    simp [s3_file_exist, head_object, hdst]
  have hrun := handler_convert allOk st ev src body df hev hel hprobe rfl hsrc hdec rfl rfl
  rw [hrun]
  have hne := derivedKey_ne hel
  exact ⟨by simp [Store.del, Store.put, hne], toColumnar_roundtrip df hwf⟩

theorem C7_lossless_roundtrip_witness :
    (lambda_handler allOk stW evW).store (derivedKey "incoming/a.csv") =
      some (Content.parquet (toColumnar tW)) ∧
    ofColumnar (toColumnar tW) = tW :=
  C7_lossless_roundtrip stW evW "incoming/a.csv" bodyW tW rfl (by decide) (by decide)
    (by decide) rfl (by decide)

/-- Claim C8: redelivering the notification after a successful conversion
(source absent, destination present) raises no error: the idempotency
shortcut runs, and the store, the destination content included, is left
pointwise unchanged. -/
theorem C8_redelivery_noop (st : Store) (ev : Event) (src : String) (v : Content)
    (hev : extractKey ev = some src)
    (hel : eligible src = true)
    (hsrc : st src = none)
    (hdst : st (derivedKey src) = some v) :
    (lambda_handler allOk st ev).success = true ∧
    (∀ k, (lambda_handler allOk st ev).store k = st k) ∧
    (lambda_handler allOk st ev).store (derivedKey src) = some v := by
  have hprobe : s3_file_exist allOk st (derivedKey src) = true := by
    simp [s3_file_exist, head_object, hdst, allOk]
  have hrun := handler_already allOk st ev src hev hel hprobe rfl
  rw [hrun]
  have hne := derivedKey_ne hel
  refine ⟨rfl, ?_, by simp [Store.del, hne, hdst]⟩
  intro k
  by_cases hk : k = src
  · subst hk
    simp [Store.del, hsrc]
  · simp [Store.del, hk]

theorem C8_redelivery_noop_witness :
    (lambda_handler allOk stArchW evW).success = true ∧
    (∀ k, (lambda_handler allOk stArchW evW).store k = stArchW k) ∧
    (lambda_handler allOk stArchW evW).store (derivedKey "incoming/a.csv") =
      some (Content.parquet (toColumnar tW)) :=
  C8_redelivery_noop stArchW evW "incoming/a.csv" (Content.parquet (toColumnar tW))
    rfl (by decide) (by decide) (by decide)

/-- Claim C9: the handler depends only on `Records[0].s3.object.key`: two
events agreeing on that field produce identical outcomes, and every
storage operation issued targets the fixed module-level bucket constant,
regardless of any bucket name carried in the event or of further batch
records. -/
theorem C9_key_only_dependence (orc : Oracle) (st : Store) (ev ev2 : Event)
    (h : extractKey ev = extractKey ev2) :
    lambda_handler orc st ev = lambda_handler orc st ev2 ∧
    ∀ op ∈ (lambda_handler orc st ev).trace, op.bucket = bucket_name := by
  constructor
  · unfold lambda_handler
    rw [h]
  · exact trace_targets_bucket orc st ev

theorem C9_key_only_dependence_witness :
    lambda_handler allOk stW evW = lambda_handler allOk stW evW2 ∧
    ∀ op ∈ (lambda_handler allOk stW evW).trace, op.bucket = bucket_name :=
  C9_key_only_dependence allOk stW evW evW2 rfl

/-- Claim C10: for every event lacking the nested key field (empty
`Records` or a missing intermediate entry), the handler raises before the
eligibility filter runs: the invocation fails with zero storage calls and
the store unchanged. -/
theorem C10_malformed_event_raises (orc : Oracle) (st : Store) (ev : Event)
    (hev : extractKey ev = none) :
    lambda_handler orc st ev = { store := st, trace := [], success := false } := by
  unfold lambda_handler
  rw [hev]

theorem C10_malformed_event_raises_witness :
    lambda_handler allOk stW evBadW =
      { store := stW, trace := [], success := false } :=
  C10_malformed_event_raises allOk stW evBadW rfl
